import Mathlib

/-!
Shallow embedding of the notero synchronization engine
(src/content/notion.ts): the static text helpers of the Notion class,
the schema-aware property mapper, the upsert client dispatch, the
schema memoization, the debounce queue / sync coordinator state
machine, and the per-batch save loop.  Strings are modelled by Lean
strings; JS string operations act on the underlying character list.
-/

/-- Mirrors TEXT_CONTENT_MAX_LENGTH (notion.ts line 42). -/
def TEXT_CONTENT_MAX_LENGTH : Nat := 2000

/-- Mirrors Notion.truncateTextToMaxLength: text.substr(0, TEXT_CONTENT_MAX_LENGTH). -/
def truncateTextToMaxLength (text : String) : String :=
  String.mk (text.data.take TEXT_CONTENT_MAX_LENGTH)

/-- Mirrors Notion.sanitizeSelectOption: text.replace of every comma by a semicolon. -/
def sanitizeSelectOption (text : String) : String :=
  String.mk (text.data.map (fun c => if c = ',' then ';' else c))

/-- JS truthiness of a nullable string: null and the empty string are falsy. -/
def jsTruthy : Option String → Bool
  | none => false
  | some s => !(s = "")

/-- JS disjunction a.orElse b for a nullable string a and a string b. -/
def jsOrString (a : Option String) (b : String) : String :=
  match a with
  | none => b
  | some s => if s = "" then b else s

/-- Mirrors Notion.buildRichText: an empty or null content yields the empty
rich-text list, otherwise a single element holding the truncated content. -/
def buildRichText (content : Option String) : List String :=
  match content with
  | none => []
  | some s => if s = "" then [] else [truncateTextToMaxLength s]

/-- Helper: getD of a mapped list commutes with the map when the default is a
fixed point of the function. -/
theorem getD_map_fixed (f : Char → Char) (d : Char) (hd : f d = d) :
    ∀ (l : List Char) (i : Nat), (l.map f).getD i d = f (l.getD i d) := by
  intro l
  induction l with
  | nil => intro i; simp [List.getD, hd]
  | cons a l ih =>
      intro i
      cases i with
      | zero => simp [List.getD]
      | succ j => simpa [List.getD] using ih j

/-- Claim C7: truncateTextToMaxLength returns exactly 2000 units for longer
input, returns shorter input unchanged, and is idempotent. -/
theorem truncateTextToMaxLength_spec (text : String) :
    (text.length > 2000 → (truncateTextToMaxLength text).length = 2000) ∧
    (text.length ≤ 2000 → truncateTextToMaxLength text = text) ∧
    truncateTextToMaxLength (truncateTextToMaxLength text) = truncateTextToMaxLength text := by
  refine ⟨?_, ?_, ?_⟩
  · intro h
    simp only [truncateTextToMaxLength, TEXT_CONTENT_MAX_LENGTH, String.length,
      List.length_take]
    simp only [String.length] at h
    omega
  · intro h
    simp only [truncateTextToMaxLength, TEXT_CONTENT_MAX_LENGTH]
    have : text.data.take 2000 = text.data := List.take_of_length_le h
    rw [this]
  · simp [truncateTextToMaxLength, List.take_take]

/-- Sample over-length input used to instantiate the truncation claim. -/
def sampleLongText : String := String.mk (List.replicate 2001 'a')

/-- Witness for Claim C7 at concrete inputs. -/
theorem truncateTextToMaxLength_spec_witness :
    (truncateTextToMaxLength sampleLongText).length = 2000 ∧
    truncateTextToMaxLength (String.mk ['h', 'i']) = String.mk ['h', 'i'] :=
  ⟨(truncateTextToMaxLength_spec sampleLongText).1
      (by show 2000 < (List.replicate 2001 'a').length; rw [List.length_replicate]; omega),
    (truncateTextToMaxLength_spec (String.mk ['h', 'i'])).2.1
      (by show (['h', 'i'] : List Char).length ≤ 2000; simp)⟩

/-- Claim C8: sanitizeSelectOption leaves no comma in its result, is
idempotent, preserves length, and replaces exactly the commas
(pointwise characterization). -/
theorem sanitizeSelectOption_spec (text : String) :
    (∀ c ∈ (sanitizeSelectOption text).data, c ≠ ',') ∧
    sanitizeSelectOption (sanitizeSelectOption text) = sanitizeSelectOption text ∧
    (sanitizeSelectOption text).length = text.length ∧
    (∀ i : Nat, (sanitizeSelectOption text).data.getD i ' ' =
      if text.data.getD i ' ' = ',' then ';' else text.data.getD i ' ') := by
  refine ⟨?_, ?_, ?_, ?_⟩
  · intro c hc
    simp only [sanitizeSelectOption, List.mem_map] at hc
    obtain ⟨a, _, rfl⟩ := hc
    by_cases h : a = ',' <;> simp [h]
  · simp only [sanitizeSelectOption, List.map_map]
    congr 1
    apply List.map_congr_left
    intro a _
    by_cases h : a = ',' <;> simp [h, Function.comp]
  · show (text.data.map (fun c => if c = ',' then ';' else c)).length = text.data.length
    simp
  · intro i
    simpa [sanitizeSelectOption] using
      getD_map_fixed (fun c => if c = ',' then ';' else c) ' ' (by simp) text.data i

/-- Sample tag label used to instantiate the sanitization claim. -/
def sampleTag : String := String.mk ['x', ',', 'y']

/-- Witness for Claim C8 at a concrete input. -/
theorem sanitizeSelectOption_spec_witness :
    ((sanitizeSelectOption sampleTag).data.getD 0 ' ' ≠ ',') ∧
    sanitizeSelectOption (sanitizeSelectOption sampleTag) = sanitizeSelectOption sampleTag :=
  ⟨(sanitizeSelectOption_spec sampleTag).1 ((sanitizeSelectOption sampleTag).data.getD 0 ' ')
      (by decide),
    (sanitizeSelectOption_spec sampleTag).2.1⟩

/-- A typed property-request value, one constructor per property type used by
the source (notion.ts lines 30-40 and 150-241). -/
inductive PropertyValue where
  | rich_text (content : List String)
  | url (address : Option String)
  | select (optionName : String)
  | multi_select (optionNames : List String)
  | number (value : Option Int)
  | title (content : List String)
deriving DecidableEq

/-- The type tag a PropertyValue carries, as the source writes it. -/
def PropertyValue.typeName : PropertyValue → String
  | .rich_text _ => "rich_text"
  | .url _ => "url"
  | .select _ => "select"
  | .multi_select _ => "multi_select"
  | .number _ => "number"
  | .title _ => "title"

/-- The read-only domain-record accessors consumed by the mapper
(notero-item getters; values already resolved, null as none). -/
structure NoteroItem where
  getTitle : String
  getAbstract : Option String
  getAuthors : List String
  getEditors : List String
  getDOI : Option String
  getURL : Option String
  getYear : Option Int
  getItemType : String
  getTags : List String
  getFilePath : Option String
  getFullCitation : Option String
  getInTextCitation : Option String
  getZoteroURI : Option String
  getNotionPageID : Option String
deriving DecidableEq

/-- A field-definition entry of buildItemProperties: name, required type,
and the already-evaluated build request. -/
structure FieldDefinition where
  name : String
  type : String
  buildRequest : PropertyValue
deriving DecidableEq

/-- The fetched database schema: property name to property type. -/
def DatabaseProperties := List (String × String)

/-- The fixed ordered field-definition list of buildItemProperties
(notion.ts lines 158-241), duplicate Zotero URI entry included. -/
def propertyDefinitions (item : NoteroItem) : List FieldDefinition :=
  [ { name := "Abstract", type := "rich_text",
      buildRequest := PropertyValue.rich_text (buildRichText item.getAbstract) },
    { name := "Authors", type := "rich_text",
      buildRequest := PropertyValue.rich_text (buildRichText (some (String.intercalate (String.mk ['\n']) item.getAuthors))) },
    { name := "DOI", type := "url",
      buildRequest := PropertyValue.url item.getDOI },
    { name := "Editors", type := "rich_text",
      buildRequest := PropertyValue.rich_text (buildRichText (some (String.intercalate (String.mk ['\n']) item.getEditors))) },
    { name := "File Path", type := "rich_text",
      buildRequest := PropertyValue.rich_text (buildRichText item.getFilePath) },
    { name := "Full Citation", type := "rich_text",
      buildRequest := PropertyValue.rich_text (buildRichText (some (jsOrString item.getFullCitation item.getTitle))) },
    { name := "In-Text Citation", type := "rich_text",
      buildRequest := PropertyValue.rich_text (buildRichText (some (jsOrString item.getInTextCitation item.getTitle))) },
    { name := "Item Type", type := "select",
      buildRequest := PropertyValue.select item.getItemType },
    { name := "Tags", type := "multi_select",
      buildRequest := PropertyValue.multi_select (item.getTags.map sanitizeSelectOption) },
    { name := "Title", type := "rich_text",
      buildRequest := PropertyValue.rich_text (buildRichText (some item.getTitle)) },
    { name := "URL", type := "url",
      buildRequest := PropertyValue.url item.getURL },
    { name := "Year", type := "number",
      buildRequest := PropertyValue.number item.getYear },
    { name := "Zotero URI", type := "url",
      buildRequest := PropertyValue.url item.getZoteroURI },
    { name := "Zotero URI", type := "url",
      buildRequest := PropertyValue.url item.getZoteroURI } ]

/-- JS object assignment obj[name] = value on an assoc list: replace in
place when the key exists, append otherwise. -/
def setProp : List (String × PropertyValue) → String → PropertyValue → List (String × PropertyValue)
  | [], name, value => [(name, value)]
  | (k, w) :: rest, name, value =>
      if k = name then (k, value) :: rest else (k, w) :: setProp rest name value

/-- Mirrors Notion.buildItemProperties (notion.ts lines 134-256): the title
property is set unconditionally, then every field definition surviving the
databaseHasProperty filter is assigned. -/
def buildItemProperties (schema : DatabaseProperties) (item : NoteroItem) :
    List (String × PropertyValue) :=
  let itemProperties :=
    [(("title" : String),
      PropertyValue.title (buildRichText (some (jsOrString item.getInTextCitation item.getTitle))))]
  let validPropertyDefinitions :=
    (propertyDefinitions item).filter
      (fun d => List.lookup d.name schema == some d.type)
  validPropertyDefinitions.foldl (fun props d => setProp props d.name d.buildRequest) itemProperties

/-- Helper: an entry of setProp l n w is the new binding or an entry of l. -/
theorem mem_setProp (l : List (String × PropertyValue)) (n : String) (w : PropertyValue) :
    ∀ k v, (k, v) ∈ setProp l n w → (k = n ∧ v = w) ∨ (k, v) ∈ l := by
  induction l with
  | nil =>
      intro k v h
      simp only [setProp, List.mem_singleton, Prod.mk.injEq] at h
      exact Or.inl h
  | cons p rest ih =>
      intro k v h
      obtain ⟨a, b⟩ := p
      simp only [setProp] at h
      by_cases hk : a = n
      · subst hk
        rw [if_pos rfl] at h
        rcases List.mem_cons.mp h with heq | htail
        · injection heq with h1 h2
          exact Or.inl ⟨h1, h2⟩
        · exact Or.inr (List.mem_cons_of_mem _ htail)
      · rw [if_neg hk] at h
        rcases List.mem_cons.mp h with h | h
        · exact Or.inr (List.mem_cons.mpr (Or.inl h))
        · rcases ih k v h with h | h
          · exact Or.inl h
          · exact Or.inr (List.mem_cons_of_mem _ h)

/-- Helper: an entry of the assignment fold is an initial entry or comes from
one of the folded field definitions. -/
theorem mem_foldl_setProp (ds : List FieldDefinition) :
    ∀ (init : List (String × PropertyValue)) (k : String) (v : PropertyValue),
      (k, v) ∈ ds.foldl (fun props d => setProp props d.name d.buildRequest) init →
      (k, v) ∈ init ∨ ∃ d ∈ ds, k = d.name ∧ v = d.buildRequest := by
  induction ds with
  | nil => intro init k v h; exact Or.inl h
  | cons d ds ih =>
      intro init k v h
      simp only [List.foldl_cons] at h
      rcases ih _ k v h with h | ⟨d2, hd2, rfl, rfl⟩
      · rcases mem_setProp init d.name d.buildRequest k v h with ⟨rfl, rfl⟩ | h
        · exact Or.inr ⟨d, List.mem_cons_self d ds, rfl, rfl⟩
        · exact Or.inl h
      · exact Or.inr ⟨d2, List.mem_cons_of_mem _ hd2, rfl, rfl⟩

/-- Helper: lookup after a single assignment. -/
theorem lookup_setProp (l : List (String × PropertyValue)) (n : String) (w : PropertyValue) :
    ∀ k, List.lookup k (setProp l n w) = if k = n then some w else List.lookup k l := by
  induction l with
  | nil =>
      intro k
      by_cases hk : k = n
      · subst hk
        simp only [setProp, List.lookup, beq_self_eq_true, eq_self_iff_true, if_true]
      · have hb : (k == n) = false := beq_eq_false_iff_ne.mpr hk
        simp only [setProp, List.lookup, hb, if_neg hk]
  | cons p rest ih =>
      intro k
      obtain ⟨a, b⟩ := p
      simp only [setProp]
      by_cases ha : a = n
      · subst ha
        rw [if_pos rfl]
        by_cases hk : k = a
        · have hb : (k == a) = true := beq_iff_eq.mpr hk
          simp only [List.lookup, hb, if_pos hk]
        · have hb : (k == a) = false := beq_eq_false_iff_ne.mpr hk
          simp only [List.lookup, hb, if_neg hk]
      · rw [if_neg ha]
        by_cases hk : k = a
        · have hb : (k == a) = true := beq_iff_eq.mpr hk
          have hkn : ¬(k = n) := by rw [hk]; exact ha
          simp only [List.lookup, hb, if_neg hkn]
        · have hb : (k == a) = false := beq_eq_false_iff_ne.mpr hk
          simp only [List.lookup, hb, ih k]

/-- Helper: the assignment fold leaves a key alone when no folded definition
carries that name. -/
theorem lookup_foldl_setProp_frame (ds : List FieldDefinition) :
    ∀ (init : List (String × PropertyValue)) (k : String), (∀ d ∈ ds, d.name ≠ k) →
      List.lookup k (ds.foldl (fun props d => setProp props d.name d.buildRequest) init) =
        List.lookup k init := by
  induction ds with
  | nil => intro init k _; rfl
  | cons d ds ih =>
      intro init k hk
      simp only [List.foldl_cons]
      rw [ih _ k (fun d2 h2 => hk d2 (List.mem_cons_of_mem _ h2))]
      rw [lookup_setProp]
      have : ¬(k = d.name) := fun h => hk d (List.mem_cons_self d ds) h.symm
      rw [if_neg this]

/-- Helper: the assignment fold never drops a key that is already bound. -/
theorem lookup_foldl_setProp_isSome (ds : List FieldDefinition) :
    ∀ (init : List (String × PropertyValue)) (k : String),
      (List.lookup k init).isSome = true →
      (List.lookup k (ds.foldl (fun props d => setProp props d.name d.buildRequest) init)).isSome = true := by
  induction ds with
  | nil => intro init k h; exact h
  | cons d ds ih =>
      intro init k h
      simp only [List.foldl_cons]
      apply ih
      rw [lookup_setProp]
      by_cases hk : k = d.name <;> simp [hk, h]

/-- Helper: every folded field definition ends up bound in the result. -/
theorem lookup_foldl_setProp_of_mem (ds : List FieldDefinition) :
    ∀ (init : List (String × PropertyValue)), ∀ d ∈ ds,
      (List.lookup d.name (ds.foldl (fun props dd => setProp props dd.name dd.buildRequest) init)).isSome = true := by
  induction ds with
  | nil => intro init d h; exact absurd h (List.not_mem_nil d)
  | cons d0 ds ih =>
      intro init d hd
      simp only [List.foldl_cons]
      rcases List.mem_cons.mp hd with rfl | hd
      · apply lookup_foldl_setProp_isSome
        rw [lookup_setProp, if_pos rfl]
        rfl
      · exact ih _ d hd

/-- Helper: in every field definition the evaluated request value carries
exactly the declared property type. -/
theorem propertyDefinitions_typeName (item : NoteroItem) :
    ∀ d ∈ propertyDefinitions item, d.buildRequest.typeName = d.type := by
  intro d hd
  simp only [propertyDefinitions, List.mem_cons, List.not_mem_nil, or_false] at hd
  rcases hd with rfl | rfl | rfl | rfl | rfl | rfl | rfl | rfl | rfl | rfl | rfl | rfl | rfl | rfl <;> rfl

/-- Helper: no field definition is named like the unconditional title key. -/
theorem propertyDefinitions_name_ne_title (item : NoteroItem) :
    ∀ d ∈ propertyDefinitions item, d.name ≠ "title" := by
  intro d hd
  simp only [propertyDefinitions, List.mem_cons, List.not_mem_nil, or_false] at hd
  rcases hd with rfl | rfl | rfl | rfl | rfl | rfl | rfl | rfl | rfl | rfl | rfl | rfl | rfl | rfl <;> simp

/-- Concrete item used to instantiate mapper and upsert claims. -/
def sampleItem : NoteroItem :=
  { getTitle := "T", getAbstract := none, getAuthors := [], getEditors := [],
    getDOI := none, getURL := none, getYear := none, getItemType := "book",
    getTags := [], getFilePath := none, getFullCitation := none,
    getInTextCitation := none, getZoteroURI := none, getNotionPageID := some ("p1") }

/-- Claim C4 counterexample: the payload always contains the title field,
even for a schema with no property named title at all, so the payload is
not limited to fields whose name and type pair occurs in the schema. -/
theorem buildItemProperties_unconditional_title_counterexample :
    (("title" : String),
        PropertyValue.title (buildRichText (some (jsOrString sampleItem.getInTextCitation sampleItem.getTitle))))
      ∈ buildItemProperties ([] : DatabaseProperties) sampleItem ∧
    List.lookup ("title" : String) ([] : DatabaseProperties) = none := by
  constructor
  · show _ ∈ buildItemProperties ([] : DatabaseProperties) sampleItem
    decide
  · rfl

/-- Claim C4 (amended): every payload field other than the unconditionally
included title field has its exact name and type pair in the fetched schema,
and every field definition surviving the schema filter is present in the
payload, its value possibly an empty representation, with no error path. -/
theorem buildItemProperties_schema_spec (schema : DatabaseProperties) (item : NoteroItem) :
    (∀ name value, (name, value) ∈ buildItemProperties schema item →
      name = "title" ∨ List.lookup name schema = some value.typeName) ∧
    (∀ d ∈ (propertyDefinitions item).filter
        (fun d => List.lookup d.name schema == some d.type),
      (List.lookup d.name (buildItemProperties schema item)).isSome = true) := by
  constructor
  · intro name value hmem
    simp only [buildItemProperties] at hmem
    rcases mem_foldl_setProp _ _ name value hmem with hinit | ⟨d, hd, rfl, rfl⟩
    · left
      exact congrArg Prod.fst (List.mem_singleton.mp hinit)
    · right
      have hfilter := List.mem_filter.mp hd
      have htype : List.lookup d.name schema = some d.type := by
        have := hfilter.2
        simpa using this
      rw [htype, propertyDefinitions_typeName item d hfilter.1]
  · intro d hd
    simp only [buildItemProperties]
    exact lookup_foldl_setProp_of_mem _ _ d hd

/-- Witness for Claim C4 (amended) at a concrete schema and item. -/
theorem buildItemProperties_schema_spec_witness :
    ("Title" : String) = "title" ∨
      List.lookup ("Title" : String) ([(("Title" : String), ("rich_text" : String))] : DatabaseProperties) =
        some (PropertyValue.rich_text (buildRichText (some sampleItem.getTitle))).typeName :=
  (buildItemProperties_schema_spec ([(("Title" : String), ("rich_text" : String))] : DatabaseProperties) sampleItem).1
    ("Title") (PropertyValue.rich_text (buildRichText (some sampleItem.getTitle))) (by decide)

/-- Claim C9: the title field of the payload holds the synthesized in-text
citation when that citation is non-empty, falls back to the raw title when
the citation is null or empty, and is a non-empty rich text whenever the raw
title is non-empty. -/
theorem buildItemProperties_title_fallback_spec (schema : DatabaseProperties) (item : NoteroItem) :
    List.lookup ("title" : String) (buildItemProperties schema item) =
      some (PropertyValue.title (buildRichText (some (jsOrString item.getInTextCitation item.getTitle)))) ∧
    (∀ c, item.getInTextCitation = some c → ¬(c = "") →
      jsOrString item.getInTextCitation item.getTitle = c) ∧
    ((item.getInTextCitation = none ∨ item.getInTextCitation = some ("")) →
      jsOrString item.getInTextCitation item.getTitle = item.getTitle) ∧
    (¬(item.getTitle = "") →
      ¬(buildRichText (some (jsOrString item.getInTextCitation item.getTitle)) = [])) := by
  refine ⟨?_, ?_, ?_, ?_⟩
  · simp only [buildItemProperties]
    rw [lookup_foldl_setProp_frame]
    · simp [List.lookup]
    · intro d hd
      exact propertyDefinitions_name_ne_title item d (List.mem_filter.mp hd).1
  · intro c hc hne
    simp [jsOrString, hc, hne]
  · intro h
    rcases h with h | h <;> simp [jsOrString, h]
  · intro hne
    have : ¬(jsOrString item.getInTextCitation item.getTitle = "") := by
      cases hcit : item.getInTextCitation with
      | none => simpa [jsOrString] using hne
      | some c =>
          by_cases hc : c = ""
          · simpa [jsOrString, hc] using hne
          · simp [jsOrString, hc]
    simp [buildRichText, this]

/-- Witness for Claim C9 at a concrete item with an empty citation. -/
theorem buildItemProperties_title_fallback_spec_witness :
    jsOrString sampleItem.getInTextCitation sampleItem.getTitle = sampleItem.getTitle ∧
    ¬(buildRichText (some (jsOrString sampleItem.getInTextCitation sampleItem.getTitle)) = []) :=
  ⟨(buildItemProperties_title_fallback_spec ([] : DatabaseProperties) sampleItem).2.2.1 (Or.inl rfl),
    (buildItemProperties_title_fallback_spec ([] : DatabaseProperties) sampleItem).2.2.2 (by decide)⟩

/-- An error surfaced by a remote call: either an APIResponseError carrying
an error code, or any other thrown value. -/
inductive RemoteError where
  | apiResponseError (code : String)
  | otherThrown (description : String)
deriving DecidableEq

/-- Mirrors APIResponseError.isAPIResponseError. -/
def isAPIResponseError : RemoteError → Bool
  | .apiResponseError _ => true
  | .otherThrown _ => false

/-- The code carried by an APIResponseError, none otherwise. -/
def remoteErrorCode : RemoteError → Option String
  | .apiResponseError code => some code
  | .otherThrown _ => none

/-- Mirrors APIErrorCode.ObjectNotFound of the notion client library. -/
def APIErrorCode_ObjectNotFound : String := "object_not_found"

/-- The response of a successful page create or update call. -/
structure PageResponse where
  id : String
  url : String
deriving DecidableEq

/-- The remote transport consumed by saveItemToDatabase, as response
oracles: what pages.update and pages.create would return. -/
structure RemoteTransport where
  updateResult : String → List (String × PropertyValue) → Except RemoteError PageResponse
  createResult : List (String × PropertyValue) → Except RemoteError PageResponse

/-- One remote call issued by the upsert, for call accounting. -/
inductive ApiCall where
  | update (pageID : String)
  | create
deriving DecidableEq

/-- Mirrors Notion.saveItemToDatabase (notion.ts lines 109-132): update the
stored page when present, fall back to create exactly when the update failed
with an APIResponseError whose code is ObjectNotFound, rethrow every other
error, create directly when no page is stored.  Returns the outcome paired
with the list of remote calls issued, in order. -/
def saveItemToDatabase (transport : RemoteTransport) (schema : DatabaseProperties)
    (item : NoteroItem) : Except RemoteError PageResponse × List ApiCall :=
  let properties := buildItemProperties schema item
  match item.getNotionPageID with
  | some pageID =>
      match transport.updateResult pageID properties with
      | Except.ok response => (Except.ok response, [ApiCall.update pageID])
      | Except.error e =>
          if isAPIResponseError e = false ∨ ¬(remoteErrorCode e = some APIErrorCode_ObjectNotFound) then
            (Except.error e, [ApiCall.update pageID])
          else
            (transport.createResult properties, [ApiCall.update pageID, ApiCall.create])
  | none => (transport.createResult properties, [ApiCall.create])

/-- Claim C3: with no stored page identifier the upsert issues exactly one
create call and no update; a stored identifier whose update fails with the
distinguishable not-found error issues exactly one create after the single
update attempt; any other update error propagates unchanged with no create. -/
theorem saveItemToDatabase_spec (transport : RemoteTransport) (schema : DatabaseProperties)
    (item : NoteroItem) :
    (item.getNotionPageID = none →
      saveItemToDatabase transport schema item =
        (transport.createResult (buildItemProperties schema item), [ApiCall.create])) ∧
    (∀ pageID e, item.getNotionPageID = some pageID →
      transport.updateResult pageID (buildItemProperties schema item) = Except.error e →
      isAPIResponseError e = true →
      remoteErrorCode e = some APIErrorCode_ObjectNotFound →
      saveItemToDatabase transport schema item =
        (transport.createResult (buildItemProperties schema item),
          [ApiCall.update pageID, ApiCall.create])) ∧
    (∀ pageID e, item.getNotionPageID = some pageID →
      transport.updateResult pageID (buildItemProperties schema item) = Except.error e →
      (isAPIResponseError e = false ∨ ¬(remoteErrorCode e = some APIErrorCode_ObjectNotFound)) →
      saveItemToDatabase transport schema item = (Except.error e, [ApiCall.update pageID])) := by
  refine ⟨?_, ?_, ?_⟩
  · intro hnone
    simp [saveItemToDatabase, hnone]
  · intro pageID e hpage hupd hapi hcode
    have hneg : ¬(isAPIResponseError e = false ∨ ¬(remoteErrorCode e = some APIErrorCode_ObjectNotFound)) := by
      simp [hapi, hcode]
    simp [saveItemToDatabase, hpage, hupd, hneg]
  · intro pageID e hpage hupd hor
    simp only [saveItemToDatabase, hpage, hupd]
    rw [if_pos hor]

/-- Transport oracle whose update always reports the not-found condition. -/
def notFoundTransport : RemoteTransport :=
  { updateResult := fun _ _ => Except.error (RemoteError.apiResponseError APIErrorCode_ObjectNotFound),
    createResult := fun _ => Except.ok { id := "r2", url := "u2" } }

/-- Witness for Claim C3: the stored identifier of the sample item is updated
once, the not-found error is recovered by one create call. -/
theorem saveItemToDatabase_spec_witness :
    saveItemToDatabase notFoundTransport ([] : DatabaseProperties) sampleItem =
      (notFoundTransport.createResult (buildItemProperties ([] : DatabaseProperties) sampleItem),
        [ApiCall.update ("p1"), ApiCall.create]) :=
  (saveItemToDatabase_spec notFoundTransport ([] : DatabaseProperties) sampleItem).2.1
    ("p1") (RemoteError.apiResponseError APIErrorCode_ObjectNotFound) rfl rfl rfl rfl

/-- Mirrors SYNC_DEBOUNCE_MS (the fixed debounce delay). -/
def SYNC_DEBOUNCE_MS : Nat := 2000

/-- A live setTimeout handle: its identity and the delay it was armed with. -/
structure PendingTimer where
  id : Nat
  delay : Nat
deriving DecidableEq

/-- Mirrors the QueuedSync record: the accumulated identifier set (insertion
order preserved, duplicates removed) and the optional pending timer. -/
structure QueuedSync where
  itemIDs : List Nat
  timeoutID : Option PendingTimer
deriving DecidableEq

/-- The mutable state of the Notero coordinator: the queued sync, the
run flag, the batches currently inside the awaited save call (at most one in
any reachable state), the completed batches in order, and a fresh-timer
counter standing for setTimeout handle allocation. -/
structure EngineState where
  queuedSync : Option QueuedSync
  syncInProgress : Bool
  inFlight : List (List Nat)
  completedBatches : List (List Nat)
  nextTimerID : Nat
deriving DecidableEq

/-- One step of JS Set insertion: append the element unless present. -/
def insertID (acc : List Nat) (x : Nat) : List Nat :=
  if x ∈ acc then acc else acc ++ [x]

/-- Mirrors new Set of the spread of the old identifiers and the new ones:
deduplicated union preserving first-occurrence order. -/
def mergeIDs (old : List Nat) (added : List Nat) : List Nat :=
  (old ++ added).foldl insertID []

/-- The identifiers currently queued, the empty list when no ChangeSet exists. -/
def queuedIDs (s : EngineState) : List Nat :=
  match s.queuedSync with
  | some q => q.itemIDs
  | none => []

/-- Mirrors Notero.enqueueItemsToSync (notion.ts lines 436-458): an empty
call is ignored; otherwise the pending timer is cleared, the identifiers are
merged into the ChangeSet, and a fresh timer with the fixed delay is armed. -/
def enqueueItemsToSync (s : EngineState) (items : List Nat) : EngineState :=
  if items = [] then s
  else
    { s with
      queuedSync := some
        { itemIDs := mergeIDs (queuedIDs s) items,
          timeoutID := some { id := s.nextTimerID, delay := SYNC_DEBOUNCE_MS } },
      nextTimerID := s.nextTimerID + 1 }

/-- The synchronous prefix of Notero.performSync (notion.ts lines 460-467):
return when nothing is queued; otherwise snapshot the identifiers, clear the
ChangeSet, raise the run flag, and start the awaited save of the snapshot. -/
def performSyncStart (s : EngineState) : EngineState :=
  match s.queuedSync with
  | none => s
  | some q =>
      { s with queuedSync := none, syncInProgress := true,
               inFlight := q.itemIDs :: s.inFlight }

/-- The timer callback (notion.ts lines 448-455) for the live timer tid: a
no-op unless tid is the armed timer of the current ChangeSet; the callback
clears the timer handle, then starts a sync pass only when none is running. -/
def fireTimer (s : EngineState) (tid : Nat) : EngineState :=
  match s.queuedSync with
  | none => s
  | some q =>
      match q.timeoutID with
      | none => s
      | some t =>
          if t.id = tid then
            let s1 := { s with queuedSync := some { itemIDs := q.itemIDs, timeoutID := none } }
            if s1.syncInProgress then s1 else performSyncStart s1
          else s

/-- The resumption of performSync after the awaited save returns (notion.ts
lines 467-473): record the finished batch, then either immediately re-drain a
ChangeSet whose timer already fired, or lower the run flag. -/
def onSaveComplete (s : EngineState) : EngineState :=
  match s.inFlight with
  | [] => s
  | batch :: rest =>
      let s1 := { s with inFlight := rest,
                         completedBatches := s.completedBatches ++ [batch] }
      match s1.queuedSync with
      | some q =>
          if q.timeoutID = none then performSyncStart s1
          else { s1 with syncInProgress := false }
      | none => { s1 with syncInProgress := false }

/-- An observable event of the cooperative single-threaded runtime. -/
inductive EngineEvent where
  | enqueue (items : List Nat)
  | fire (tid : Nat)
  | saveDone
deriving DecidableEq

/-- The step function of the coordinator state machine. -/
def engineStep (s : EngineState) : EngineEvent → EngineState
  | .enqueue items => enqueueItemsToSync s items
  | .fire tid => fireTimer s tid
  | .saveDone => onSaveComplete s

/-- The state at plugin load: nothing queued, no run in progress. -/
def initialEngineState : EngineState :=
  { queuedSync := none, syncInProgress := false, inFlight := [],
    completedBatches := [], nextTimerID := 0 }

/-- Run the coordinator from the initial state over an event sequence. -/
def runEngine (events : List EngineEvent) : EngineState :=
  events.foldl engineStep initialEngineState

/-- Single-flight property: at most one save in flight, and none while the
run flag is down. -/
def SingleFlight (s : EngineState) : Prop :=
  s.inFlight.length ≤ 1 ∧ (s.syncInProgress = false → s.inFlight = [])

/-- The deduplicated union of all identifiers of a sequence of enqueue calls. -/
def unionOfCalls : List (List Nat) → Finset Nat
  | [] => ∅
  | c :: cs => c.toFinset ∪ unionOfCalls cs

/-- Helper: the element set of the Set-insertion fold. -/
theorem foldl_insertID_toFinset :
    ∀ (l acc : List Nat), (l.foldl insertID acc).toFinset = acc.toFinset ∪ l.toFinset := by
  intro l
  induction l with
  | nil => intro acc; simp
  | cons x l ih =>
      intro acc
      simp only [List.foldl_cons]
      rw [ih]
      by_cases hx : x ∈ acc
      · rw [insertID, if_pos hx]
        ext y
        simp only [Finset.mem_union, List.mem_toFinset, List.mem_cons]
        constructor
        · rintro (h | h)
          · exact Or.inl h
          · exact Or.inr (Or.inr h)
        · rintro (h | rfl | h)
          · exact Or.inl h
          · exact Or.inl hx
          · exact Or.inr h
      · rw [insertID, if_neg hx]
        ext y
        simp only [Finset.mem_union, List.mem_toFinset, List.mem_append,
          List.mem_singleton, List.mem_cons]
        constructor
        · rintro ((h | rfl | h0) | h)
          · exact Or.inl h
          · exact Or.inr (Or.inl rfl)
          · exact absurd h0 (List.not_mem_nil _)
          · exact Or.inr (Or.inr h)
        · rintro (h | rfl | h)
          · exact Or.inl (Or.inl h)
          · exact Or.inl (Or.inr (Or.inl rfl))
          · exact Or.inr h

/-- Helper: the Set-insertion fold never introduces a duplicate. -/
theorem foldl_insertID_nodup :
    ∀ (l acc : List Nat), acc.Nodup → (l.foldl insertID acc).Nodup := by
  intro l
  induction l with
  | nil => intro acc h; exact h
  | cons x l ih =>
      intro acc h
      simp only [List.foldl_cons]
      apply ih
      by_cases hx : x ∈ acc
      · rw [insertID, if_pos hx]; exact h
      · rw [insertID, if_neg hx]
        simp only [List.nodup_append, List.nodup_cons, List.not_mem_nil,
          not_false_iff, List.nodup_nil, and_true, true_and]
        refine ⟨h, ?_⟩
        intro a ha hax
        rcases List.mem_singleton.mp hax with rfl
        exact hx ha

/-- Helper: mergeIDs computes the deduplicated union. -/
theorem mergeIDs_toFinset (old added : List Nat) :
    (mergeIDs old added).toFinset = old.toFinset ∪ added.toFinset := by
  rw [mergeIDs, foldl_insertID_toFinset]
  simp

/-- Helper: mergeIDs never produces duplicates. -/
theorem mergeIDs_nodup (old added : List Nat) : (mergeIDs old added).Nodup :=
  foldl_insertID_nodup _ _ List.nodup_nil

/-- Helper: the ChangeSet produced by one non-empty enqueue call. -/
theorem enqueue_queuedSync (s : EngineState) (items : List Nat) (h : ¬(items = [])) :
    (enqueueItemsToSync s items).queuedSync =
      some { itemIDs := mergeIDs (queuedIDs s) items,
             timeoutID := some { id := s.nextTimerID, delay := SYNC_DEBOUNCE_MS } } := by
  simp [enqueueItemsToSync, h]

/-- Helper: enqueue touches only the ChangeSet and the timer counter. -/
theorem enqueue_frame (s : EngineState) (items : List Nat) :
    (enqueueItemsToSync s items).syncInProgress = s.syncInProgress ∧
    (enqueueItemsToSync s items).inFlight = s.inFlight ∧
    (enqueueItemsToSync s items).completedBatches = s.completedBatches := by
  unfold enqueueItemsToSync
  split <;> simp

/-- Helper: a whole window of enqueue calls touches only the ChangeSet and
the timer counter. -/
theorem foldl_enqueue_frame (calls : List (List Nat)) :
    ∀ s : EngineState,
      (calls.foldl enqueueItemsToSync s).syncInProgress = s.syncInProgress ∧
      (calls.foldl enqueueItemsToSync s).inFlight = s.inFlight ∧
      (calls.foldl enqueueItemsToSync s).completedBatches = s.completedBatches := by
  induction calls with
  | nil => intro s; exact ⟨rfl, rfl, rfl⟩
  | cons c cs ih =>
      intro s
      simp only [List.foldl_cons]
      obtain ⟨h1, h2, h3⟩ := ih (enqueueItemsToSync s c)
      obtain ⟨g1, g2, g3⟩ := enqueue_frame s c
      exact ⟨h1.trans g1, h2.trans g2, h3.trans g3⟩

/-- Helper: a non-empty window of non-empty enqueue calls leaves an armed
fixed-delay timer over the deduplicated union of the old ChangeSet and all
enqueued identifiers. -/
theorem enqueue_window_queued (calls : List (List Nat)) :
    ∀ s : EngineState, ¬(calls = []) → (∀ c ∈ calls, ¬(c = [])) →
      ∃ ids t,
        (calls.foldl enqueueItemsToSync s).queuedSync =
          some { itemIDs := ids, timeoutID := some t } ∧
        t.delay = SYNC_DEBOUNCE_MS ∧
        ids.toFinset = (queuedIDs s).toFinset ∪ unionOfCalls calls ∧
        ids.Nodup := by
  induction calls with
  | nil => intro s h _; exact absurd rfl h
  | cons c cs ih =>
      intro s _ hcalls
      have hc : ¬(c = []) := hcalls c (List.mem_cons_self c cs)
      by_cases hcs : cs = []
      · subst hcs
        refine ⟨mergeIDs (queuedIDs s) c,
          { id := s.nextTimerID, delay := SYNC_DEBOUNCE_MS }, ?_, rfl, ?_, mergeIDs_nodup _ _⟩
        · simp only [List.foldl_cons, List.foldl_nil]
          exact enqueue_queuedSync s c hc
        · rw [mergeIDs_toFinset]
          simp [unionOfCalls]
      · simp only [List.foldl_cons]
        obtain ⟨ids, t, h1, h2, h3, h4⟩ :=
          ih (enqueueItemsToSync s c) hcs (fun c2 h2 => hcalls c2 (List.mem_cons_of_mem _ h2))
        refine ⟨ids, t, h1, h2, ?_, h4⟩
        rw [h3]
        have hq : queuedIDs (enqueueItemsToSync s c) = mergeIDs (queuedIDs s) c := by
          simp [queuedIDs, enqueue_queuedSync s c hc]
        rw [hq, mergeIDs_toFinset, unionOfCalls, Finset.union_assoc]

/-- Helper: firing the armed timer while no run is in progress clears the
ChangeSet and starts the pass on exactly its identifiers. -/
theorem fireTimer_start (s : EngineState) (ids : List Nat) (t : PendingTimer)
    (hq : s.queuedSync = some { itemIDs := ids, timeoutID := some t })
    (hs : s.syncInProgress = false) :
    fireTimer s t.id =
      { s with queuedSync := none, syncInProgress := true,
               inFlight := ids :: s.inFlight } := by
  simp [fireTimer, hq, hs, performSyncStart]

/-- Helper: firing any timer with no ChangeSet present is a no-op. -/
theorem fireTimer_no_queue (s : EngineState) (tid : Nat) (hq : s.queuedSync = none) :
    fireTimer s tid = s := by
  simp [fireTimer, hq]

/-- Helper: completing the only in-flight save with nothing queued records
the batch and returns the coordinator to idle. -/
theorem onSaveComplete_toIdle (s : EngineState) (batch : List Nat)
    (hf : s.inFlight = [batch]) (hq : s.queuedSync = none) :
    onSaveComplete s =
      { s with inFlight := [], syncInProgress := false,
               completedBatches := s.completedBatches ++ [batch] } := by
  simp [onSaveComplete, hf, hq]

/-- Helper: completing the only in-flight save while a ChangeSet with no
pending timer accumulated re-drains it into an immediate further pass. -/
theorem onSaveComplete_redrain (s : EngineState) (batch ids : List Nat)
    (hf : s.inFlight = [batch])
    (hq : s.queuedSync = some { itemIDs := ids, timeoutID := none }) :
    onSaveComplete s =
      { s with inFlight := [ids], syncInProgress := true, queuedSync := none,
               completedBatches := s.completedBatches ++ [batch] } := by
  simp [onSaveComplete, hf, hq, performSyncStart]

/-- Helper: a stale timer handle that is not the armed one does nothing. -/
theorem fireTimer_wrong_id (s : EngineState) (tid : Nat) (q : List Nat) (t : PendingTimer)
    (hq : s.queuedSync = some { itemIDs := q, timeoutID := some t })
    (h : ¬(t.id = tid)) : fireTimer s tid = s := by
  simp [fireTimer, hq, h]

/-- Claim C1: a window of enqueue calls accumulates exactly the deduplicated
union of the enqueued identifiers under an armed fixed-delay timer; each new
enqueue call disarms the previous timer and arms a fresh one with the fixed
delay; when the timer fires, exactly one pass starts on exactly that union,
completing it records exactly one batch, and the spent timer is dead. -/
theorem enqueueItemsToSync_window_spec (s0 : EngineState) (calls : List (List Nat))
    (h0q : s0.queuedSync = none) (h0s : s0.syncInProgress = false)
    (h0f : s0.inFlight = []) (hne : ¬(calls = [])) (hcalls : ∀ c ∈ calls, ¬(c = [])) :
    ∃ ids t,
      (calls.foldl enqueueItemsToSync s0).queuedSync =
        some { itemIDs := ids, timeoutID := some t } ∧
      t.delay = SYNC_DEBOUNCE_MS ∧
      ids.toFinset = unionOfCalls calls ∧
      ids.Nodup ∧
      (fireTimer (calls.foldl enqueueItemsToSync s0) t.id).inFlight = [ids] ∧
      (fireTimer (calls.foldl enqueueItemsToSync s0) t.id).queuedSync = none ∧
      (fireTimer (calls.foldl enqueueItemsToSync s0) t.id).syncInProgress = true ∧
      (onSaveComplete (fireTimer (calls.foldl enqueueItemsToSync s0) t.id)).completedBatches =
        s0.completedBatches ++ [ids] ∧
      (onSaveComplete (fireTimer (calls.foldl enqueueItemsToSync s0) t.id)).inFlight = [] ∧
      (onSaveComplete (fireTimer (calls.foldl enqueueItemsToSync s0) t.id)).syncInProgress = false ∧
      (∀ tid2 : Nat,
        fireTimer (onSaveComplete (fireTimer (calls.foldl enqueueItemsToSync s0) t.id)) tid2 =
          onSaveComplete (fireTimer (calls.foldl enqueueItemsToSync s0) t.id)) ∧
      (∀ (s : EngineState) (c q : List Nat) (t0 : PendingTimer),
        s.queuedSync = some { itemIDs := q, timeoutID := some t0 } → ¬(c = []) →
        ¬(t0.id = s.nextTimerID) →
        fireTimer (enqueueItemsToSync s c) t0.id = enqueueItemsToSync s c ∧
        (enqueueItemsToSync s c).queuedSync =
          some { itemIDs := mergeIDs q c,
                 timeoutID := some { id := s.nextTimerID, delay := SYNC_DEBOUNCE_MS } }) := by
  obtain ⟨ids, t, h1, h2, h3, h4⟩ := enqueue_window_queued calls s0 hne hcalls
  obtain ⟨f1, f2, f3⟩ := foldl_enqueue_frame calls s0
  have h3u : ids.toFinset = unionOfCalls calls := by
    rw [h3]
    simp [queuedIDs, h0q]
  have hfire := fireTimer_start (calls.foldl enqueueItemsToSync s0) ids t h1 (f1.trans h0s)
  have hflight : (fireTimer (calls.foldl enqueueItemsToSync s0) t.id).inFlight = [ids] := by
    rw [hfire]
    show ids :: (calls.foldl enqueueItemsToSync s0).inFlight = [ids]
    rw [f2, h0f]
  have hqnone : (fireTimer (calls.foldl enqueueItemsToSync s0) t.id).queuedSync = none := by
    rw [hfire]
  have hd := onSaveComplete_toIdle (fireTimer (calls.foldl enqueueItemsToSync s0) t.id)
    ids hflight hqnone
  refine ⟨ids, t, h1, h2, h3u, h4, hflight, hqnone, ?_, ?_, ?_, ?_, ?_, ?_⟩
  · rw [hfire]
  · rw [hd]
    show (fireTimer (calls.foldl enqueueItemsToSync s0) t.id).completedBatches ++ [ids] =
      s0.completedBatches ++ [ids]
    rw [hfire]
    show (calls.foldl enqueueItemsToSync s0).completedBatches ++ [ids] =
      s0.completedBatches ++ [ids]
    rw [f3]
  · rw [hd]
  · rw [hd]
  · intro tid2
    apply fireTimer_no_queue
    rw [hd]
    show (fireTimer (calls.foldl enqueueItemsToSync s0) t.id).queuedSync = none
    exact hqnone
  · intro s c q t0 hq hc hneq
    constructor
    · apply fireTimer_wrong_id (enqueueItemsToSync s c) t0.id (mergeIDs (queuedIDs s) c)
        { id := s.nextTimerID, delay := SYNC_DEBOUNCE_MS }
        (enqueue_queuedSync s c hc)
      intro h
      exact hneq h.symm
    · rw [enqueue_queuedSync s c hc]
      have : queuedIDs s = q := by simp [queuedIDs, hq]
      rw [this]

/-- Witness for Claim C1: two overlapping enqueue calls within one window. -/
theorem enqueueItemsToSync_window_spec_witness :
    ∃ ids t,
      (([[1, 2], [2, 3]] : List (List Nat)).foldl enqueueItemsToSync initialEngineState).queuedSync =
        some { itemIDs := ids, timeoutID := some t } ∧
      t.delay = SYNC_DEBOUNCE_MS ∧
      ids.toFinset = unionOfCalls [[1, 2], [2, 3]] ∧
      ids.Nodup ∧
      (fireTimer (([[1, 2], [2, 3]] : List (List Nat)).foldl enqueueItemsToSync initialEngineState) t.id).inFlight = [ids] ∧
      (fireTimer (([[1, 2], [2, 3]] : List (List Nat)).foldl enqueueItemsToSync initialEngineState) t.id).queuedSync = none ∧
      (fireTimer (([[1, 2], [2, 3]] : List (List Nat)).foldl enqueueItemsToSync initialEngineState) t.id).syncInProgress = true ∧
      (onSaveComplete (fireTimer (([[1, 2], [2, 3]] : List (List Nat)).foldl enqueueItemsToSync initialEngineState) t.id)).completedBatches =
        initialEngineState.completedBatches ++ [ids] ∧
      (onSaveComplete (fireTimer (([[1, 2], [2, 3]] : List (List Nat)).foldl enqueueItemsToSync initialEngineState) t.id)).inFlight = [] ∧
      (onSaveComplete (fireTimer (([[1, 2], [2, 3]] : List (List Nat)).foldl enqueueItemsToSync initialEngineState) t.id)).syncInProgress = false ∧
      (∀ tid2 : Nat,
        fireTimer (onSaveComplete (fireTimer (([[1, 2], [2, 3]] : List (List Nat)).foldl enqueueItemsToSync initialEngineState) t.id)) tid2 =
          onSaveComplete (fireTimer (([[1, 2], [2, 3]] : List (List Nat)).foldl enqueueItemsToSync initialEngineState) t.id)) ∧
      (∀ (s : EngineState) (c q : List Nat) (t0 : PendingTimer),
        s.queuedSync = some { itemIDs := q, timeoutID := some t0 } → ¬(c = []) →
        ¬(t0.id = s.nextTimerID) →
        fireTimer (enqueueItemsToSync s c) t0.id = enqueueItemsToSync s c ∧
        (enqueueItemsToSync s c).queuedSync =
          some { itemIDs := mergeIDs q c,
                 timeoutID := some { id := s.nextTimerID, delay := SYNC_DEBOUNCE_MS } }) :=
  enqueueItemsToSync_window_spec initialEngineState [[1, 2], [2, 3]] rfl rfl rfl
    (by decide) (by decide)

/-- Helper: the callback of a fired timer with no armed handle is a no-op. -/
theorem fireTimer_no_timer (s : EngineState) (tid : Nat) (q : List Nat)
    (hq : s.queuedSync = some { itemIDs := q, timeoutID := none }) :
    fireTimer s tid = s := by
  simp [fireTimer, hq]

/-- Helper: the armed timer firing during a running pass only clears the
timer handle; it starts nothing. -/
theorem fireTimer_running (s : EngineState) (q : List Nat) (t : PendingTimer)
    (hq : s.queuedSync = some { itemIDs := q, timeoutID := some t })
    (hs : s.syncInProgress = true) :
    fireTimer s t.id = { s with queuedSync := some { itemIDs := q, timeoutID := none } } := by
  simp [fireTimer, hq, hs]

/-- Helper: completing a save with a timer still pending just lowers the run
flag; the pending timer will drive the next pass. -/
theorem onSaveComplete_timerPending (s : EngineState) (batch q : List Nat) (t : PendingTimer)
    (hf : s.inFlight = [batch])
    (hq : s.queuedSync = some { itemIDs := q, timeoutID := some t }) :
    onSaveComplete s =
      { s with inFlight := [], syncInProgress := false,
               completedBatches := s.completedBatches ++ [batch] } := by
  simp [onSaveComplete, hf, hq]

/-- Helper: every coordinator step preserves the single-flight property. -/
theorem engineStep_singleFlight (s : EngineState) (e : EngineEvent)
    (h : SingleFlight s) : SingleFlight (engineStep s e) := by
  obtain ⟨hlen, hidle⟩ := h
  cases e with
  | enqueue items =>
      show SingleFlight (enqueueItemsToSync s items)
      obtain ⟨g1, g2, _⟩ := enqueue_frame s items
      constructor
      · rw [g2]; exact hlen
      · intro hs
        rw [g1] at hs
        rw [g2]
        exact hidle hs
  | fire tid =>
      show SingleFlight (fireTimer s tid)
      cases hq : s.queuedSync with
      | none =>
          rw [fireTimer_no_queue s tid hq]
          exact ⟨hlen, hidle⟩
      | some q =>
          obtain ⟨qids, qtid⟩ := q
          cases htid : qtid with
          | none =>
              subst htid
              rw [fireTimer_no_timer s tid qids hq]
              exact ⟨hlen, hidle⟩
          | some t =>
              subst htid
              by_cases hid : t.id = tid
              · subst hid
                by_cases hs : s.syncInProgress = true
                · rw [fireTimer_running s qids t hq hs]
                  constructor
                  · exact hlen
                  · intro hfalse
                    rw [show ({ s with queuedSync := some { itemIDs := qids, timeoutID := none } } : EngineState).syncInProgress = s.syncInProgress from rfl, hs] at hfalse
                    exact absurd hfalse (by decide)
                · have hsf : s.syncInProgress = false := by
                    cases hb : s.syncInProgress
                    · rfl
                    · exact absurd hb hs
                  rw [fireTimer_start s qids t hq hsf]
                  constructor
                  · show (qids :: s.inFlight).length ≤ 1
                    rw [hidle hsf]
                    simp
                  · intro hfalse
                    simp at hfalse
              · rw [fireTimer_wrong_id s tid qids t hq hid]
                exact ⟨hlen, hidle⟩
  | saveDone =>
      show SingleFlight (onSaveComplete s)
      cases hf : s.inFlight with
      | nil =>
          have : onSaveComplete s = s := by simp [onSaveComplete, hf]
          rw [this]
          exact ⟨hlen, hidle⟩
      | cons batch rest =>
          have hrest : rest = [] := by
            rw [hf] at hlen
            simp only [List.length_cons] at hlen
            exact List.length_eq_zero.mp (by omega)
          subst hrest
          cases hq : s.queuedSync with
          | none =>
              rw [onSaveComplete_toIdle s batch hf hq]
              exact ⟨by simp, fun _ => rfl⟩
          | some q =>
              obtain ⟨qids, qtid⟩ := q
              cases htid : qtid with
              | none =>
                  subst htid
                  rw [onSaveComplete_redrain s batch qids hf hq]
                  constructor
                  · simp
                  · intro hfalse
                    simp at hfalse
              | some t =>
                  subst htid
                  rw [onSaveComplete_timerPending s batch qids t hf hq]
                  exact ⟨by simp, fun _ => rfl⟩

/-- Helper: single-flight is preserved along any event sequence. -/
theorem foldl_engineStep_singleFlight (events : List EngineEvent) :
    ∀ s : EngineState, SingleFlight s → SingleFlight (events.foldl engineStep s) := by
  induction events with
  | nil => intro s h; exact h
  | cons e es ih =>
      intro s h
      simp only [List.foldl_cons]
      exact ih (engineStep s e) (engineStep_singleFlight s e h)

/-- Claim C2: at most one synchronization pass executes at any instant along
every event sequence from the initial state; a timer firing while a pass is
running starts nothing and loses no queued identifier; and a ChangeSet whose
timer already fired is re-drained into an immediate further pass when the
running save completes, before the coordinator returns to idle. -/
theorem performSync_singleFlight_spec :
    (∀ (s : EngineState) (tid : Nat), s.syncInProgress = true →
      (fireTimer s tid).inFlight = s.inFlight ∧
      (fireTimer s tid).completedBatches = s.completedBatches ∧
      (fireTimer s tid).syncInProgress = true ∧
      queuedIDs (fireTimer s tid) = queuedIDs s) ∧
    (∀ events : List EngineEvent, SingleFlight (runEngine events)) ∧
    (∀ (s : EngineState) (batch ids : List Nat),
      s.inFlight = [batch] → s.queuedSync = some { itemIDs := ids, timeoutID := none } →
      (onSaveComplete s).inFlight = [ids] ∧
      (onSaveComplete s).syncInProgress = true ∧
      (onSaveComplete s).queuedSync = none ∧
      (onSaveComplete s).completedBatches = s.completedBatches ++ [batch]) := by
  refine ⟨?_, ?_, ?_⟩
  · intro s tid hs
    cases hq : s.queuedSync with
    | none =>
        rw [fireTimer_no_queue s tid hq]
        exact ⟨rfl, rfl, hs, rfl⟩
    | some q =>
        obtain ⟨qids, qtid⟩ := q
        cases htid : qtid with
        | none =>
            subst htid
            rw [fireTimer_no_timer s tid qids hq]
            exact ⟨rfl, rfl, hs, rfl⟩
        | some t =>
            subst htid
            by_cases hid : t.id = tid
            · subst hid
              rw [fireTimer_running s qids t hq hs]
              exact ⟨rfl, rfl, hs, by simp [queuedIDs, hq]⟩
            · rw [fireTimer_wrong_id s tid qids t hq hid]
              exact ⟨rfl, rfl, hs, rfl⟩
  · intro events
    exact foldl_engineStep_singleFlight events initialEngineState (by constructor <;> simp [initialEngineState])
  · intro s batch ids hf hq
    rw [onSaveComplete_redrain s batch ids hf hq]
    exact ⟨rfl, rfl, rfl, rfl⟩

/-- A coordinator state in the middle of a running pass, with an identifier
enqueued during the pass and its timer already armed. -/
def runningState : EngineState :=
  { queuedSync := some { itemIDs := [2], timeoutID := some { id := 1, delay := SYNC_DEBOUNCE_MS } },
    syncInProgress := true, inFlight := [[1]], completedBatches := [], nextTimerID := 2 }

/-- The same mid-pass state after its timer fired during the pass. -/
def redrainReadyState : EngineState :=
  { queuedSync := some { itemIDs := [2], timeoutID := none },
    syncInProgress := true, inFlight := [[1]], completedBatches := [], nextTimerID := 2 }

/-- Witness for Claim C2: the timer fires mid-pass without starting a second
pass, the invariant holds over a concrete event trace, and the completed pass
re-drains the accumulated identifier. -/
theorem performSync_singleFlight_spec_witness :
    ((fireTimer runningState 1).inFlight = runningState.inFlight ∧
      (fireTimer runningState 1).completedBatches = runningState.completedBatches ∧
      (fireTimer runningState 1).syncInProgress = true ∧
      queuedIDs (fireTimer runningState 1) = queuedIDs runningState) ∧
    SingleFlight (runEngine [EngineEvent.enqueue [1], EngineEvent.fire 0, EngineEvent.saveDone]) ∧
    ((onSaveComplete redrainReadyState).inFlight = [[2]] ∧
      (onSaveComplete redrainReadyState).syncInProgress = true ∧
      (onSaveComplete redrainReadyState).queuedSync = none ∧
      (onSaveComplete redrainReadyState).completedBatches = redrainReadyState.completedBatches ++ [[1]]) :=
  ⟨performSync_singleFlight_spec.1 runningState 1 rfl,
    performSync_singleFlight_spec.2.1 [EngineEvent.enqueue [1], EngineEvent.fire 0, EngineEvent.saveDone],
    performSync_singleFlight_spec.2.2 redrainReadyState [1] [2] rfl rfl⟩

/-- The observable outcome of one saveItemsToNotion run: the items whose
upsert was attempted in order, those that succeeded, and the first error. -/
structure SyncReport where
  attempted : List Nat
  succeeded : List Nat
  errorMessage : Option String
deriving DecidableEq

/-- Mirrors the loop of Notero.saveItemsToNotion (notion.ts lines 489-509):
items are upserted strictly in order; the first thrown error is caught, ends
the loop, and leaves the remaining items unattempted. -/
def saveItemsToNotion (upsert : Nat → Except String Unit) : List Nat → SyncReport
  | [] => { attempted := [], succeeded := [], errorMessage := none }
  | i :: rest =>
      match upsert i with
      | Except.ok _ =>
          let r := saveItemsToNotion upsert rest
          { attempted := i :: r.attempted, succeeded := i :: r.succeeded,
            errorMessage := r.errorMessage }
      | Except.error msg => { attempted := [i], succeeded := [], errorMessage := some msg }

/-- Helper: the save loop over a successful prefix followed by a failing item
attempts exactly the prefix and the failing item. -/
theorem saveItemsToNotion_abort (upsert : Nat → Except String Unit) (k : Nat)
    (post : List Nat) (e : String) (hk : upsert k = Except.error e) :
    ∀ pre : List Nat, (∀ i ∈ pre, upsert i = Except.ok ()) →
      saveItemsToNotion upsert (pre ++ k :: post) =
        { attempted := pre ++ [k], succeeded := pre, errorMessage := some e } := by
  intro pre
  induction pre with
  | nil =>
      intro _
      simp [saveItemsToNotion, hk]
  | cons i pre ih =>
      intro hpre
      have hi : upsert i = Except.ok () := hpre i (List.mem_cons_self i pre)
      have hrest := ih (fun j hj => hpre j (List.mem_cons_of_mem _ hj))
      simp [saveItemsToNotion, hi, hrest]

/-- Claim C6: when item k of a batch fails after a successful prefix, the
prefix keeps its successful outcomes, the failure is reported, no item after
k is attempted, and completing the save never adds identifiers back to the
ChangeSet (the aborted remainder is not re-enqueued). -/
theorem saveItemsToNotion_abort_spec (upsert : Nat → Except String Unit)
    (pre : List Nat) (k : Nat) (post : List Nat) (e : String)
    (hpre : ∀ i ∈ pre, upsert i = Except.ok ())
    (hk : upsert k = Except.error e)
    (hnd : (pre ++ k :: post).Nodup) :
    (saveItemsToNotion upsert (pre ++ k :: post)).succeeded = pre ∧
    (saveItemsToNotion upsert (pre ++ k :: post)).attempted = pre ++ [k] ∧
    (saveItemsToNotion upsert (pre ++ k :: post)).errorMessage = some e ∧
    (∀ j ∈ post, ¬(j ∈ (saveItemsToNotion upsert (pre ++ k :: post)).attempted)) ∧
    (∀ s : EngineState,
      (onSaveComplete s).queuedSync = s.queuedSync ∨ (onSaveComplete s).queuedSync = none) := by
  have hrun := saveItemsToNotion_abort upsert k post e hk pre hpre
  rw [List.nodup_append] at hnd
  obtain ⟨-, hkpost, hdisj⟩ := hnd
  rw [List.nodup_cons] at hkpost
  refine ⟨by rw [hrun], by rw [hrun], by rw [hrun], ?_, ?_⟩
  · intro j hj
    rw [hrun]
    intro hmem
    rcases List.mem_append.mp hmem with hjpre | hjk
    · exact hdisj hjpre (List.mem_cons_of_mem _ hj)
    · rcases List.mem_singleton.mp hjk with rfl
      exact hkpost.1 hj
  · intro s
    cases hf : s.inFlight with
    | nil =>
        left
        simp [onSaveComplete, hf]
    | cons batch rest =>
        cases hq : s.queuedSync with
        | none =>
            left
            simp [onSaveComplete, hf, hq]
        | some q =>
            obtain ⟨qids, qtid⟩ := q
            cases htid : qtid with
            | none =>
                subst htid
                right
                simp [onSaveComplete, hf, hq, performSyncStart]
            | some t =>
                subst htid
                left
                simp [onSaveComplete, hf, hq]

/-- Upsert oracle in which exactly item 2 fails. -/
def sampleUpsert : Nat → Except String Unit :=
  fun i => if i = 2 then Except.error ("transient") else Except.ok ()

/-- Witness for Claim C6: batch of three items whose second item fails. -/
theorem saveItemsToNotion_abort_spec_witness :
    (saveItemsToNotion sampleUpsert ([1] ++ 2 :: [3])).succeeded = [1] ∧
    (saveItemsToNotion sampleUpsert ([1] ++ 2 :: [3])).attempted = [1] ++ [2] ∧
    (saveItemsToNotion sampleUpsert ([1] ++ 2 :: [3])).errorMessage = some ("transient") ∧
    (∀ j ∈ [3], ¬(j ∈ (saveItemsToNotion sampleUpsert ([1] ++ 2 :: [3])).attempted)) ∧
    (∀ s : EngineState,
      (onSaveComplete s).queuedSync = s.queuedSync ∨ (onSaveComplete s).queuedSync = none) :=
  saveItemsToNotion_abort_spec sampleUpsert [1] 2 [3] ("transient")
    (by intro i hi; rcases List.mem_singleton.mp hi with rfl; rfl)
    rfl (by decide)

/-- The state owned by getDatabaseProperties: the memoized schema field and a
count of retrieval calls issued to the remote store. -/
structure MemoState where
  databaseProperties : Option DatabaseProperties
  retrieveCount : Nat

/-- What the synchronous head of a getDatabaseProperties call observes. -/
inductive GetPropsResult where
  | cacheHit (props : DatabaseProperties)
  | fetchStarted

/-- The synchronous head of Notion.getDatabaseProperties (notion.ts lines
99-107): a populated cache is returned at once; otherwise a retrieval call is
issued and the caller suspends awaiting it. -/
def getDatabaseProperties_begin (s : MemoState) : MemoState × GetPropsResult :=
  match s.databaseProperties with
  | some props => (s, GetPropsResult.cacheHit props)
  | none => ({ s with retrieveCount := s.retrieveCount + 1 }, GetPropsResult.fetchStarted)

/-- The resumption after the awaited retrieval returns: store and return it. -/
def getDatabaseProperties_finish (s : MemoState) (fetched : DatabaseProperties) :
    MemoState × DatabaseProperties :=
  ({ s with databaseProperties := some fetched }, fetched)

/-- One complete call of getDatabaseProperties that runs without any other
call interleaved between its head and its resumption. -/
def getDatabasePropertiesCall (s : MemoState) (fetched : DatabaseProperties) :
    MemoState × DatabaseProperties :=
  match getDatabaseProperties_begin s with
  | (s1, GetPropsResult.cacheHit props) => (s1, props)
  | (s1, GetPropsResult.fetchStarted) => getDatabaseProperties_finish s1 fetched

/-- Claim C5 counterexample: two callers that both start while the cache is
still empty - the second beginning before the first awaited fetch resolves -
issue two underlying retrieval calls, not one. -/
theorem getDatabaseProperties_concurrent_counterexample :
    ((getDatabaseProperties_begin
        (getDatabaseProperties_begin
          { databaseProperties := none, retrieveCount := 0 }).1).1).retrieveCount = 2 := by
  rfl

/-- Claim C5 (amended): a populated cache makes every later call a synchronous
hit with no retrieval; an empty-cache call issues exactly one retrieval and
populates the cache; and once populated, any number of further sequential
calls issues no retrieval at all.  The no-duplicate guarantee does not extend
to callers interleaved inside the first fetch. -/
theorem getDatabaseProperties_memo_spec :
    (∀ (s : MemoState) (props fetched : DatabaseProperties),
      s.databaseProperties = some props →
      getDatabasePropertiesCall s fetched = (s, props)) ∧
    (∀ (s : MemoState) (fetched : DatabaseProperties),
      s.databaseProperties = none →
      (getDatabasePropertiesCall s fetched).1.retrieveCount = s.retrieveCount + 1 ∧
      (getDatabasePropertiesCall s fetched).1.databaseProperties = some fetched ∧
      (getDatabasePropertiesCall s fetched).2 = fetched) ∧
    (∀ (s : MemoState), (s.databaseProperties.isSome = true) →
      ∀ fs : List DatabaseProperties,
        (fs.foldl (fun st f => (getDatabasePropertiesCall st f).1) s).retrieveCount =
          s.retrieveCount) := by
  refine ⟨?_, ?_, ?_⟩
  · intro s props fetched h
    simp [getDatabasePropertiesCall, getDatabaseProperties_begin, h]
  · intro s fetched h
    simp [getDatabasePropertiesCall, getDatabaseProperties_begin,
      getDatabaseProperties_finish, h]
  · intro s hs fs
    induction fs generalizing s with
    | nil => rfl
    | cons f fs ih =>
        simp only [List.foldl_cons]
        obtain ⟨props, hprops⟩ := Option.isSome_iff_exists.mp hs
        have hcall : getDatabasePropertiesCall s f = (s, props) := by
          simp [getDatabasePropertiesCall, getDatabaseProperties_begin, hprops]
        rw [hcall]
        exact ih s hs

/-- Witness for Claim C5 (amended) at concrete cache states. -/
theorem getDatabaseProperties_memo_spec_witness :
    getDatabasePropertiesCall
        { databaseProperties := some ([(("Title" : String), ("rich_text" : String))]), retrieveCount := 1 }
        ([] : DatabaseProperties) =
      ({ databaseProperties := some ([(("Title" : String), ("rich_text" : String))]), retrieveCount := 1 },
        [(("Title" : String), ("rich_text" : String))]) ∧
    (getDatabasePropertiesCall { databaseProperties := none, retrieveCount := 0 }
        ([] : DatabaseProperties)).1.retrieveCount = 0 + 1 :=
  ⟨getDatabaseProperties_memo_spec.1
      { databaseProperties := some ([(("Title" : String), ("rich_text" : String))]), retrieveCount := 1 }
      [(("Title" : String), ("rich_text" : String))] ([] : DatabaseProperties) rfl,
    (getDatabaseProperties_memo_spec.2.1 { databaseProperties := none, retrieveCount := 0 }
      ([] : DatabaseProperties) rfl).1⟩

/-- Which handler Notero.notifierCallback.notify forwards a notification to. -/
inductive NotifierAction where
  | addItemsToCollection
  | modifyItems
  | ignored
deriving DecidableEq

/-- Mirrors Notero.notifierCallback (notion.ts lines 326-342): add to
collection events are handled only with sync-on-modify disabled, modify
events only with it enabled. -/
def notifierCallback (syncOnModifyItems : Bool) (event ty : String) : NotifierAction :=
  if syncOnModifyItems = false ∧ event = "add" ∧ ty = "collection-item" then
    NotifierAction.addItemsToCollection
  else if syncOnModifyItems = true ∧ event = "modify" ∧ ty = "item" then
    NotifierAction.modifyItems
  else
    NotifierAction.ignored

/-- Claim C10: the two change kinds are mutually exclusive on the
sync-on-modify flag: with the flag enabled only modify item notifications are
forwarded, with it disabled only add-to-collection notifications are, and no
notification is handled by both paths. -/
theorem notifierCallback_spec (syncOnModifyItems : Bool) (event ty : String) :
    (notifierCallback syncOnModifyItems event ty = NotifierAction.addItemsToCollection ↔
      syncOnModifyItems = false ∧ event = "add" ∧ ty = "collection-item") ∧
    (notifierCallback syncOnModifyItems event ty = NotifierAction.modifyItems ↔
      syncOnModifyItems = true ∧ event = "modify" ∧ ty = "item") ∧
    ¬(notifierCallback syncOnModifyItems event ty = NotifierAction.addItemsToCollection ∧
      notifierCallback syncOnModifyItems event ty = NotifierAction.modifyItems) := by
  unfold notifierCallback
  cases syncOnModifyItems <;> split_ifs with h1 h2 <;> simp_all

/-- Witness for Claim C10 at concrete notifications. -/
theorem notifierCallback_spec_witness :
    notifierCallback true ("modify") ("item") = NotifierAction.modifyItems ∧
    notifierCallback false ("add") ("collection-item") = NotifierAction.addItemsToCollection :=
  ⟨(notifierCallback_spec true ("modify") ("item")).2.1.mpr ⟨rfl, rfl, rfl⟩,
    (notifierCallback_spec false ("add") ("collection-item")).1.mpr ⟨rfl, rfl, rfl⟩⟩
